import Mathlib

/-!
Shallow embedding of `kopf/reactor/effects.py`: the effect-application phase
of the kopf reconciliation engine.

The module has four entry points, all modelled here:

* `apply`            — the per-cycle patch / sleep / touch orchestration,
* `patch_and_check`  — write a patch and verify it took effect,
* `sleep_or_wait`    — interruptible sleep returning the unslept remainder,
* `throttled`        — stateful backoff around a guarded operation.

Python object bodies and patches are JSON-like nested dictionaries; they are
modelled by the inductive `Value`.  Durations and monotonic timestamps are
modelled by `Rat` (Python floats, used here only through arithmetic and
comparisons).  Asynchronous waiting is modelled by an oracle argument: for
each potential wait, the caller of the model supplies whether (and when) the
wakeup event fired.  External writes are modelled by recording each patch
sent to the transport in an explicit event trace.

Collaborators of the module that live outside the given source file
(`kopf.structs.diffs`, `kopf.structs.dicts`, the progress storage and the
patching client) are modelled from the specification; each such definition
carries a doc comment starting with `Modelled from the spec:`.
-/

namespace Effects

/-- JSON-like values: the nested structure of Kubernetes object bodies
(`bodies.Body`) and patches (`patches.Patch`), both dict subclasses in the
source. -/
inductive Value where
  | null
  | b (x : Bool)
  | n (x : Int)
  | s (x : String)
  | arr (xs : List Value)
  | obj (fields : List (String × Value))
deriving Repr

mutual
/-- Python `==` on JSON-like values (used by the diff to compare leaves). -/
def Value.beq : Value → Value → Bool
  | Value.null, Value.null => true
  | Value.b x, Value.b y => x == y
  | Value.n x, Value.n y => x == y
  | Value.s x, Value.s y => x == y
  | Value.arr xs, Value.arr ys => Value.beqList xs ys
  | Value.obj fs, Value.obj gs => Value.beqFields fs gs
  | _, _ => false
def Value.beqList : List Value → List Value → Bool
  | [], [] => true
  | x :: xs, y :: ys => Value.beq x y && Value.beqList xs ys
  | _, _ => false
def Value.beqFields : List (String × Value) → List (String × Value) → Bool
  | [], [] => true
  | (k, v) :: xs, (k', v') :: ys => k == k' && Value.beq v v' && Value.beqFields xs ys
  | _, _ => false
end

/-- Python truthiness of a JSON-like value: `None`, `False`, `0`, `""` and
empty containers are falsy.  `if patch:` in the source tests exactly this. -/
def Value.truthy : Value → Bool
  | Value.null => false
  | Value.b x => x
  | Value.n x => x != 0
  | Value.s x => !x.isEmpty
  | Value.arr xs => !xs.isEmpty
  | Value.obj fs => !fs.isEmpty

/-- Dictionary lookup (first matching key, as in a Python dict where keys are
unique). -/
def lookupField (fs : List (String × Value)) (k : String) : Option Value :=
  match fs with
  | [] => none
  | (k', v) :: rest => if k' == k then some v else lookupField rest k

/-- A field path, as produced by `dicts.parse_field('metadata.labels')` etc. -/
abbrev FieldPath := List String

/-- Diff operations of `kopf.structs.diffs.DiffOperation`. -/
inductive DiffOp where
  | add
  | change
  | remove
deriving Repr, DecidableEq

/-- One diff record `(op, field, old, new)` — `kopf.structs.diffs.DiffItem`. -/
structure DiffItem where
  op : DiffOp
  field : FieldPath
  old : Value
  new : Value
deriving Repr

/-- K8s-managed fields that are removed completely when patched to an empty
list/dict — lines 38-42 of the source. -/
def KNOWN_INCONSISTENCIES : List FieldPath :=
  [["metadata", "annotations"], ["metadata", "finalizers"], ["metadata", "labels"]]

mutual
/-- Modelled from the spec: `diffs.diff(a, b, scope=diffs.DiffScope.LEFT)`
from the missing module `kopf.structs.diffs`.  The diff is restricted to the
fields present in the left argument (the patch): nested dicts are recursed
into over the left dict's keys only; a key present on the left and absent on
the right yields a `remove` record; any other divergence yields a `change`
record; all non-dict values are compared atomically. -/
def diffLeft : Value → Value → FieldPath → List DiffItem
  | Value.obj fa, Value.obj fb, path => diffFields fa fb path
  | a, b, path => if Value.beq a b then [] else [⟨DiffOp.change, path, a, b⟩]
def diffFields : List (String × Value) → List (String × Value) → FieldPath → List DiffItem
  | [], _, _ => []
  | (k, v) :: rest, fb, path =>
      (match lookupField fb k with
       | some vb => diffLeft v vb (path ++ [k])
       | none => [⟨DiffOp.remove, path ++ [k], v, Value.null⟩]) ++ diffFields rest fb path
end

mutual
/-- Whether a field path resolves to a position inside a value — used to state
that the left-scoped diff only inspects fields present in the patch. -/
def hasPath : Value → FieldPath → Bool
  | _, [] => true
  | Value.obj fs, k :: rest => hasPathFields fs k rest
  | _, _ :: _ => false
def hasPathFields : List (String × Value) → String → FieldPath → Bool
  | [], _, _ => false
  | (k', v) :: fsrest, k, rest => (k' == k && hasPath v rest) || hasPathFields fsrest k rest
end

/-- The inconsistency pipeline of `patch_and_check` (lines 121-126): the
left-scoped diff of the patch against the resulting body, with the known
false positives dropped — a record survives iff its old value is truthy, or
its new value is truthy, or its field is not a known inconsistency. -/
def reportedInconsistencies (patch resulting_body : Value) : List DiffItem :=
  (diffLeft patch resulting_body []).filter fun i =>
    i.old.truthy || i.new.truthy || !(KNOWN_INCONSISTENCIES.contains i.field)

/-- The external write transport `patching.patch_obj` (an opaque collaborator):
given the patch and the current body it returns the authoritative post-write
body, or a transport error. -/
abbrev Patcher := Value → Value → Except Unit Value

/-- Observable effects of one `patch_and_check` call: the patches actually
sent to the transport, how many diffs were computed, and the warning logs
(each carrying the surviving inconsistency records). -/
structure CheckEffects where
  writes : List Value
  diffsComputed : Nat
  warnings : List (List DiffItem)
deriving Repr

/-- Embedding of `patch_and_check` (lines 97-128): if the patch is non-empty,
send it to the transport, diff the patch against the resulting body with left
scope, drop the known false positives, and log a warning iff inconsistencies
remain; an empty patch does nothing at all.  Transport failures propagate. -/
def patch_and_check (patch_obj : Patcher) (patch body : Value) :
    Except Unit CheckEffects :=
  if patch.truthy then
    match patch_obj patch body with
    | Except.error e => Except.error e
    | Except.ok resulting_body =>
        let inconsistencies := reportedInconsistencies patch resulting_body
        Except.ok { writes := [patch], diffsComputed := 1,
                    warnings := if inconsistencies.isEmpty then [] else [inconsistencies] }
  else
    Except.ok { writes := [], diffsComputed := 0, warnings := [] }

/-- The `delays` argument of `sleep_or_wait` (line 132): a single optional
float or a collection of optional floats. -/
inductive SleepArg where
  | one (d : Option Rat)
  | many (ds : List (Option Rat))
deriving Repr, DecidableEq

/-- Line 143: `passed_delays = delays if isinstance(delays, Collection) else
[delays]`. -/
def passedDelays : SleepArg → List (Option Rat)
  | SleepArg.one d => [d]
  | SleepArg.many ds => ds

/-- Python `min` over a list, with `0` for the empty list — line 145:
`min(actual_delays) if actual_delays else 0`. -/
def minimalDelay : List Rat → Rat
  | [] => 0
  | x :: xs => xs.foldl min x

/-- Result of one `sleep_or_wait` call: the returned value, and whether a
real low-level wait was performed at all. -/
structure SleepOutcome where
  result : Option Rat
  waited : Bool
deriving Repr, DecidableEq

/-- Embedding of `sleep_or_wait` (lines 131-165).  `interrupt` is the oracle
for the wakeup event: `none` if the event did not fire within the timeout
(the `asyncio.TimeoutError` path), `some t` if it fired after `t` seconds of
waiting.  Null delays are dropped; if the minimal remaining delay is not
positive the function returns `none` immediately without any real wait;
an uninterrupted wait returns `none`; an interrupted wait returns
`max 0 (minimal_delay - duration)`. -/
def sleep_or_wait (delays : SleepArg) (interrupt : Option Rat) : SleepOutcome :=
  let actual_delays := (passedDelays delays).filterMap id
  let minimal_delay := minimalDelay actual_delays
  if minimal_delay ≤ 0 then
    { result := none, waited := false }
  else
    match interrupt with
    | none => { result := none, waited := true }
    | some duration => { result := some (max 0 (minimal_delay - duration)), waited := true }

/-- The bookkeeping field used by the progress storage for touch markers.
Its exact location is a configuration detail of the persistence layer; only
its disjointness from real resource fields matters here. -/
def PROGRESS_FIELD : FieldPath := ["status", "kopf", "dummy"]

/-- Touch marker encoding: `None` or a string value. -/
def markerValue : Option String → Value
  | none => Value.null
  | some x => Value.s x

/-- Dictionary update: replace the first binding of the key, or append one. -/
def setField (fs : List (String × Value)) (k : String) (v : Value) :
    List (String × Value) :=
  match fs with
  | [] => [(k, v)]
  | (k', v') :: rest => if k' == k then (k, v) :: rest else (k', v') :: setField rest k v

/-- Set a nested field, creating intermediate objects as needed. -/
def setPath (v : Value) (path : FieldPath) (newv : Value) : Value :=
  match path with
  | [] => newv
  | k :: rest =>
      match v with
      | Value.obj fs =>
          Value.obj (setField fs k (setPath ((lookupField fs k).getD (Value.obj [])) rest newv))
      | _ => Value.obj [(k, setPath (Value.obj []) rest newv)]

/-- Read a nested field. -/
def getPath (v : Value) (path : FieldPath) : Option Value :=
  match path with
  | [] => some v
  | k :: rest =>
      match v with
      | Value.obj fs =>
          match lookupField fs k with
          | some v' => getPath v' rest
          | none => none
      | _ => none

/-- Modelled from the spec: `settings.persistence.progress_storage.touch`
from the missing progress-storage module.  It writes the marker value through
the bookkeeping/progress field of the patch iff the value differs from the
marker currently stored in the body; clearing (`value=None`) on a body that
holds no marker leaves the patch untouched, so it never makes an
otherwise-empty patch non-empty. -/
def progressTouch (body patch : Value) (value : Option String) : Value :=
  if Value.beq ((getPath body PROGRESS_FIELD).getD Value.null) (markerValue value) then
    patch
  else
    setPath patch PROGRESS_FIELD (markerValue value)

/-- Externally observable actions of one `apply` cycle, in temporal order:
each patch sent to the transport, and each real sleep with its requested
duration. -/
inductive Event where
  | write (patch : Value)
  | sleep (duration : Rat)
deriving Repr

/-- Whether an event is a real sleep. -/
def Event.isSleep : Event → Bool
  | Event.sleep _ => true
  | Event.write _ => false

/-- The write events of one `patch_and_check` call. -/
def CheckEffects.events (c : CheckEffects) : List Event :=
  c.writes.map Event.write

/-- Python truthiness of the optional `delay` float in `apply`: `None` and
`0.0` are falsy, every other float is truthy. -/
def delayTruthy : Option Rat → Bool
  | none => false
  | some d => d != 0

/-- Line 35: how often to wake up from the long sleep — `10 * 60` seconds in
the source, written here as the evaluated constant. -/
def WAITING_KEEPALIVE_INTERVAL : Rat := 600

/-- Result of one `apply` cycle: the returned `applied` flag and the trace of
externally observable actions. -/
structure ApplyResult where
  applied : Bool
  events : List Event
deriving Repr

/-- Embedding of `apply` (lines 45-94).  `interrupt` is the oracle for the
`replenished` event of the (at most one) real sleep of the cycle;
`touchValue` is the fresh timestamp string of line 88.  The body mirrors the
source line by line: compute `delay = min(delays) or None`; clear the dummy
markers from a non-empty patch; write via `patch_and_check`; then either skip
sleeping (patch written and delay truthy), sleep capped at the keepalive
interval, touch after an uninterrupted sleep (also for `delay == 0` with no
patch), or report the steady state `applied=True` when there is neither a
patch nor a delay. -/
def apply (patch_obj : Patcher) (body patch : Value) (delays : List Rat)
    (interrupt : Option Rat) (touchValue : String) : Except Unit ApplyResult :=
  let delay : Option Rat := if delays.isEmpty then none else some (minimalDelay delays)
  let patch := if patch.truthy then progressTouch body patch none else patch
  match patch_and_check patch_obj patch body with
  | Except.error e => Except.error e
  | Except.ok c1 =>
      if delayTruthy delay && patch.truthy then
        Except.ok { applied := false, events := c1.events }
      else
        match delay with
        | some d =>
            let stepOutcome : SleepOutcome × List Event :=
              if d > WAITING_KEEPALIVE_INTERVAL then
                (sleep_or_wait (SleepArg.one (some WAITING_KEEPALIVE_INTERVAL)) interrupt,
                 [Event.sleep WAITING_KEEPALIVE_INTERVAL])
              else if d > 0 then
                (sleep_or_wait (SleepArg.one (some d)) interrupt, [Event.sleep d])
              else
                ({ result := none, waited := false }, [])
            let unslept_delay := stepOutcome.1.result
            let sleepEvents := stepOutcome.2
            if patch.truthy && !(delayTruthy (some d)) then
              Except.ok { applied := false, events := c1.events ++ sleepEvents }
            else if unslept_delay.isSome then
              Except.ok { applied := false, events := c1.events ++ sleepEvents }
            else
              let touch := progressTouch body (Value.obj []) (some touchValue)
              match patch_and_check patch_obj touch body with
              | Except.error e => Except.error e
              | Except.ok c2 =>
                  Except.ok { applied := false,
                              events := c1.events ++ sleepEvents ++ c2.events }
        | none =>
            if !patch.truthy then
              Except.ok { applied := true, events := c1.events }
            else
              Except.ok { applied := false, events := c1.events }

/-- The mutable throttle state `containers.Throttler` (all fields start as
`None`; the state outlives single calls). -/
structure Throttler where
  source_of_delays : Option (List Rat)
  last_used_delay : Option Rat
  active_until : Option Rat
deriving Repr, DecidableEq

/-- What the guarded scope of `throttled` did: finished normally, or raised
an exception.  `isExceptionSub` says whether the raised object is an instance
of Python's `Exception` (the `except Exception` clause of line 195 catches it
only then; `BaseException`-level exceptions bypass it); `isInErrors` says
whether it is an instance of the configured `errors` classes. -/
inductive Outcome where
  | success
  | raised (isExceptionSub : Bool) (isInErrors : Bool)
deriving Repr, DecidableEq

/-- Result of one pass through the `throttled` scope: the final throttle
state, the `should_run` flag that was yielded, and whether an exception
propagated out to the caller. -/
structure ThrottledRun where
  state : Throttler
  should_run : Bool
  propagated : Bool
deriving Repr, DecidableEq

/-- The 1st sleep of `throttled` (lines 183-188): if throttling is active,
sleep for the remaining time; if that sleep completes in full, leave the
throttling state. -/
def throttledPreCheck (t : Throttler) (now : Rat) (interrupt : Option Rat) :
    Throttler :=
  match t.active_until with
  | some active_until =>
      let o := sleep_or_wait (SleepArg.one (some (active_until - now))) interrupt
      if o.result.isNone then { t with active_until := none } else t
  | none => t

/-- The 2nd sleep of `throttled` (lines 221-228): if throttling has just been
activated in this same call, sleep out the new window inline; if that sleep
completes in full, leave the throttling state. -/
def throttledPost (t : Throttler) (should_run : Bool) (now : Rat)
    (interrupt : Option Rat) : Throttler :=
  match t.active_until with
  | some active_until =>
      if should_run then
        let o := sleep_or_wait (SleepArg.one (some (active_until - now))) interrupt
        if o.result.isNone then { t with active_until := none } else t
      else t
  | none => t

/-- Embedding of `throttled` (lines 168-228).  `outcome` is what the guarded
scope did; `now1`/`now2`/`now3` are the values of `time.monotonic()` at the
pre-check, at the activation of a fresh backoff window, and at the post-check
respectively; `int1`/`int2` are the wakeup oracles of the two sleeps.  An
exception that is not caught (not an `Exception` instance), not an instance
of the configured error classes, or raised while `should_run` was false,
propagates with no further state changes; a genuine fresh failure pulls the
next backoff delay (falling back to the last used one when the sequence is
exhausted) and, when one exists, activates a window and sleeps it out inline;
a success with `should_run` true resets the delay source and the last used
delay. -/
def throttled (t : Throttler) (delays : List Rat) (outcome : Outcome)
    (now1 : Rat) (int1 : Option Rat) (now2 : Rat) (now3 : Rat)
    (int2 : Option Rat) : ThrottledRun :=
  let t1 := throttledPreCheck t now1 int1
  let should_run := t1.active_until.isNone
  match outcome with
  | Outcome.raised false _ =>
      { state := t1, should_run := should_run, propagated := true }
  | Outcome.raised true isInErrors =>
      if !isInErrors then
        { state := t1, should_run := should_run, propagated := true }
      else if !should_run then
        { state := t1, should_run := should_run, propagated := true }
      else
        let src := t1.source_of_delays.getD delays
        let pulled : Option Rat × List Rat :=
          match src with
          | [] => (t1.last_used_delay, [])
          | d :: rest => (some d, rest)
        let t2 : Throttler :=
          match pulled.1 with
          | some d =>
              { source_of_delays := some pulled.2, last_used_delay := some d,
                active_until := some (now2 + d) }
          | none => { t1 with source_of_delays := some pulled.2 }
        { state := throttledPost t2 should_run now3 int2,
          should_run := should_run, propagated := false }
  | Outcome.success =>
      let t2 :=
        if should_run then
          { t1 with source_of_delays := none, last_used_delay := none }
        else t1
      { state := throttledPost t2 should_run now3 int2,
        should_run := should_run, propagated := false }

/-- Whether an `Except` result is a success. -/
def exceptIsOk {α : Type} : Except Unit α → Bool
  | Except.ok _ => true
  | Except.error _ => false

/-! Helper lemmas. -/

theorem minimalDelay_nil : minimalDelay [] = 0 := rfl

theorem setField_ne_nil (fs : List (String × Value)) (k : String) (v : Value) :
    setField fs k v ≠ [] := by
  match fs with
  | [] => simp [setField]
  | (k', v') :: rest =>
      rw [setField]
      split <;> simp

theorem setPath_progress_truthy (p m : Value) :
    (setPath p PROGRESS_FIELD m).truthy = true := by
  cases p <;> simp [PROGRESS_FIELD, setPath, Value.truthy, setField_ne_nil]

theorem progressTouch_truthy (body patch : Value) (value : Option String)
    (h : patch.truthy = true) : (progressTouch body patch value).truthy = true := by
  rw [progressTouch]
  split
  · exact h
  · exact setPath_progress_truthy patch (markerValue value)

theorem progressTouch_fresh (body patch : Value) (value : Option String)
    (hfresh : Value.beq ((getPath body PROGRESS_FIELD).getD Value.null)
        (markerValue value) = false) :
    progressTouch body patch value = setPath patch PROGRESS_FIELD (markerValue value) := by
  rw [progressTouch, if_neg]
  simp [hfresh]

theorem patch_and_check_transport_error (patch_obj : Patcher) (patch body : Value)
    (e : Unit) (hp : patch.truthy = true) (he : patch_obj patch body = Except.error e) :
    patch_and_check patch_obj patch body = Except.error e := by
  rw [patch_and_check]
  simp [hp, he]

theorem patch_and_check_transport_ok (patch_obj : Patcher) (patch body rb : Value)
    (hp : patch.truthy = true) (hok : patch_obj patch body = Except.ok rb) :
    patch_and_check patch_obj patch body =
      Except.ok { writes := [patch], diffsComputed := 1,
                  warnings := if (reportedInconsistencies patch rb).isEmpty then []
                              else [reportedInconsistencies patch rb] } := by
  rw [patch_and_check]
  simp [hp, hok]

theorem lookupField_setField (fs : List (String × Value)) (k : String) (v : Value) :
    lookupField (setField fs k v) k = some v := by
  induction fs with
  | nil => simp [setField, lookupField]
  | cons kv rest ih =>
      obtain ⟨k', v'⟩ := kv
      rw [setField]
      split
      · simp [lookupField]
      · rw [lookupField]
        next hne => simp [hne, ih]

theorem getPath_setPath (path : FieldPath) (v newv : Value) :
    getPath (setPath v path newv) path = some newv := by
  induction path generalizing v with
  | nil => simp [setPath, getPath]
  | cons k rest ih =>
      cases v <;> simp [setPath, getPath, lookupField, lookupField_setField, ih]

theorem throttledPreCheck_source (t : Throttler) (now : Rat) (interrupt : Option Rat) :
    (throttledPreCheck t now interrupt).source_of_delays = t.source_of_delays := by
  simp only [throttledPreCheck]
  split
  · split <;> rfl
  · rfl

theorem throttledPreCheck_last (t : Throttler) (now : Rat) (interrupt : Option Rat) :
    (throttledPreCheck t now interrupt).last_used_delay = t.last_used_delay := by
  simp only [throttledPreCheck]
  split
  · split <;> rfl
  · rfl

theorem throttledPreCheck_of_active_none (t : Throttler) (now : Rat)
    (interrupt : Option Rat) (h : t.active_until = none) :
    throttledPreCheck t now interrupt = t := by
  rw [throttledPreCheck, h]

theorem throttled_should_run_of_active_none (t : Throttler) (delays : List Rat)
    (outcome : Outcome) (now1 now2 now3 : Rat) (int1 int2 : Option Rat)
    (h : t.active_until = none) :
    (throttled t delays outcome now1 int1 now2 now3 int2).should_run = true := by
  rw [throttled.eq_def, throttledPreCheck_of_active_none t now1 int1 h]
  cases outcome with
  | success => simp [h]
  | raised iExc iErr =>
      cases iExc
      · simp [h]
      · simp only [h]
        split
        · simp [h]
        · split <;> simp [h]

theorem apply_ok_applied_false_of_patch (patch_obj : Patcher) (body patch : Value)
    (delays : List Rat) (interrupt : Option Rat) (touchValue : String)
    (r : ApplyResult) (hp : patch.truthy = true)
    (h : apply patch_obj body patch delays interrupt touchValue = Except.ok r) :
    r.applied = false := by
  have hpt : (progressTouch body patch none).truthy = true :=
    progressTouch_truthy body patch none hp
  rw [apply.eq_def] at h
  simp only [hp, hpt, if_true, Bool.and_true, Bool.not_true, Bool.false_eq_true,
    if_false] at h
  repeat' split at h
  all_goals try (exact Except.noConfusion h)
  all_goals injection h with h2
  all_goals subst h2
  all_goals rfl

theorem apply_ok_applied_false_of_delays (patch_obj : Patcher) (body patch : Value)
    (delays : List Rat) (interrupt : Option Rat) (touchValue : String)
    (r : ApplyResult) (hd : delays ≠ [])
    (h : apply patch_obj body patch delays interrupt touchValue = Except.ok r) :
    r.applied = false := by
  cases delays with
  | nil => exact absurd rfl hd
  | cons a as =>
      rw [apply.eq_def] at h
      simp only [List.isEmpty_cons, Bool.false_eq_true, if_false] at h
      repeat' split at h
      all_goals try (exact Except.noConfusion h)
      all_goals injection h with h2
      all_goals subst h2
      all_goals rfl

theorem apply_steady_eval (patch_obj : Patcher) (body patch : Value)
    (interrupt : Option Rat) (touchValue : String) (hp : patch.truthy = false) :
    apply patch_obj body patch [] interrupt touchValue =
      Except.ok { applied := true, events := [] } := by
  have hnoop : patch_and_check patch_obj patch body =
      Except.ok { writes := [], diffsComputed := 0, warnings := [] } := by
    rw [patch_and_check]
    simp [hp]
  rw [apply.eq_def]
  simp only [List.isEmpty_nil, if_true, hp, Bool.false_eq_true, if_false, hnoop]
  simp [delayTruthy, CheckEffects.events]

theorem diffLeft_hasPath : ∀ (a b : Value) (path : FieldPath),
    ∀ i ∈ diffLeft a b path, ∃ q, i.field = path ++ q ∧ hasPath a q = true := by
  apply diffLeft.induct
    (motive_1 := fun a b path => ∀ i ∈ diffLeft a b path,
      ∃ q, i.field = path ++ q ∧ hasPath a q = true)
    (motive_2 := fun fa fb path => ∀ i ∈ diffFields fa fb path,
      ∃ k qrest, i.field = path ++ (k :: qrest) ∧ hasPathFields fa k qrest = true)
  case case1 =>
    intro fa fb path h2 i hi
    simp only [diffLeft] at hi
    obtain ⟨k, qrest, hf, hp⟩ := h2 i hi
    exact ⟨k :: qrest, hf, by simpa [hasPath] using hp⟩
  case case2 =>
    intro a b path hne hbeq i hi
    cases a <;> cases b <;>
      first
      | exact (hne _ _ rfl rfl).elim
      | simp [diffLeft, hbeq] at hi
  case case3 =>
    intro a b path hne hbeq i hi
    cases a <;> cases b <;>
      first
      | exact (hne _ _ rfl rfl).elim
      | (simp [diffLeft, hbeq] at hi
         exact ⟨[], by simp [hi], by simp [hi, hasPath]⟩)
  case case4 =>
    intro fb path i hi
    simp [diffFields] at hi
  case case5 =>
    intro k v rest fb path ih1 ih2 i hi
    simp only [diffFields] at hi
    rw [List.mem_append] at hi
    rcases hi with hi | hi
    · cases hfb : lookupField fb k with
      | some vb =>
          rw [hfb] at hi
          obtain ⟨q, hf, hp⟩ := ih1 vb i hi
          refine ⟨k, q, ?_, ?_⟩
          · simpa [List.append_assoc] using hf
          · simp [hasPathFields, hp]
      | none =>
          rw [hfb] at hi
          simp only [List.mem_singleton] at hi
          subst hi
          exact ⟨k, [], rfl, by simp [hasPathFields, hasPath]⟩
    · obtain ⟨k', q, hf, hp⟩ := ih2 i hi
      exact ⟨k', q, hf, by simp [hasPathFields, hp]⟩

/-! Claim theorems. -/

/-- C6: for every input to `sleep_or_wait`, null entries are dropped before
taking the minimum, and if the resulting minimal delay is at most `0` —
including an empty collection and a collection of only null entries, whose
minimum defaults to `0` — the call returns `None` immediately without
performing any real wait. -/
theorem sleep_or_wait_nonpositive_immediate (delays : SleepArg) (interrupt : Option Rat)
    (h : (passedDelays delays).filterMap id = [] ∨
         minimalDelay ((passedDelays delays).filterMap id) ≤ 0) :
    sleep_or_wait delays interrupt = { result := none, waited := false } := by
  have hle : minimalDelay ((passedDelays delays).filterMap id) ≤ 0 := by
    rcases h with h | h
    · rw [h, minimalDelay_nil]
    · exact h
  simp only [sleep_or_wait.eq_def]
  rw [if_pos hle]

/-- Witness for C6: a collection of only null entries returns `None` with no
real wait even though the wakeup oracle would fire. -/
theorem sleep_or_wait_nonpositive_immediate_witness :
    sleep_or_wait (SleepArg.many [none, none]) (some 1) =
      { result := none, waited := false } :=
  sleep_or_wait_nonpositive_immediate (SleepArg.many [none, none]) (some 1) (Or.inl rfl)

/-- C7: a `sleep_or_wait` call with a positive minimal delay that is
interrupted by the wakeup signal after `t` elapsed seconds (`0 ≤ t ≤
minimal_delay`) performs a real wait and returns exactly `minimal_delay - t`,
which lies in the closed interval `[0, minimal_delay - t]`: it is never
negative and never exceeds `minimal_delay`. -/
theorem sleep_or_wait_interrupted_remainder (delays : SleepArg) (t : Rat)
    (hm : 0 < minimalDelay ((passedDelays delays).filterMap id))
    (ht0 : 0 ≤ t)
    (htm : t ≤ minimalDelay ((passedDelays delays).filterMap id)) :
    sleep_or_wait delays (some t) =
      { result := some (minimalDelay ((passedDelays delays).filterMap id) - t),
        waited := true } ∧
    0 ≤ minimalDelay ((passedDelays delays).filterMap id) - t ∧
    minimalDelay ((passedDelays delays).filterMap id) - t ≤
      minimalDelay ((passedDelays delays).filterMap id) := by
  refine ⟨?_, by linarith, by linarith⟩
  rw [sleep_or_wait]
  simp only [not_le.mpr hm, if_false, ite_false]
  have : max 0 (minimalDelay ((passedDelays delays).filterMap id) - t) =
      minimalDelay ((passedDelays delays).filterMap id) - t :=
    max_eq_right (by linarith)
  rw [this]

/-- Witness for C7: a 5-second sleep interrupted after 2 seconds returns 3
seconds, within `[0, 3]`. -/
theorem sleep_or_wait_interrupted_remainder_witness :
    sleep_or_wait (SleepArg.one (some 5)) (some 2) =
      { result := some (minimalDelay ((passedDelays (SleepArg.one (some 5))).filterMap id) - 2),
        waited := true } ∧
    0 ≤ minimalDelay ((passedDelays (SleepArg.one (some 5))).filterMap id) - 2 ∧
    minimalDelay ((passedDelays (SleepArg.one (some 5))).filterMap id) - 2 ≤
      minimalDelay ((passedDelays (SleepArg.one (some 5))).filterMap id) :=
  sleep_or_wait_interrupted_remainder (SleepArg.one (some 5)) 2
    (by decide) (by decide) (by decide)

/-- C8: calling `patch_and_check` with an empty patch performs zero writes
and zero diff computations and produces no warnings — the transport is never
invoked and the call succeeds with no observable effect. -/
theorem patch_and_check_empty_patch_noop (patch_obj : Patcher) (patch body : Value)
    (h : patch.truthy = false) :
    patch_and_check patch_obj patch body =
      Except.ok { writes := [], diffsComputed := 0, warnings := [] } := by
  rw [patch_and_check]
  simp [h]

/-- Witness for C8: an empty patch is a no-op even when the transport would
fail on any write. -/
theorem patch_and_check_empty_patch_noop_witness :
    patch_and_check (fun _ _ => Except.error ()) (Value.obj []) (Value.obj [("a", Value.n 1)]) =
      Except.ok { writes := [], diffsComputed := 0, warnings := [] } :=
  patch_and_check_empty_patch_noop (fun _ _ => Except.error ())
    (Value.obj []) (Value.obj [("a", Value.n 1)]) rfl

/-- C9: `patch_and_check` succeeds exactly when the patch is empty or the
underlying write transport succeeds — observed post-write divergence is only
logged as a warning and never makes the call fail. -/
theorem patch_and_check_fails_only_on_transport (patch_obj : Patcher) (patch body : Value) :
    exceptIsOk (patch_and_check patch_obj patch body) =
      (!patch.truthy || exceptIsOk (patch_obj patch body)) := by
  rw [patch_and_check]
  by_cases h : patch.truthy = true
  · simp only [h, if_pos, Bool.not_true, Bool.false_or]
    cases hres : patch_obj patch body <;> simp [exceptIsOk, hres]
  · simp only [Bool.not_eq_true] at h
    simp [h, exceptIsOk]

/-- C1: the `applied` flag returned by `apply` is true iff the cycle is in
the steady state: the patch is empty and the delays collection is empty — no
write was performed, no sleep, no touch. -/
theorem apply_applied_iff_steady (patch_obj : Patcher) (body patch : Value)
    (delays : List Rat) (interrupt : Option Rat) (touchValue : String)
    (r : ApplyResult)
    (h : apply patch_obj body patch delays interrupt touchValue = Except.ok r) :
    r.applied = true ↔ (patch.truthy = false ∧ delays = []) := by
  constructor
  · intro ha
    refine ⟨?_, ?_⟩
    · by_contra hp
      rw [Bool.not_eq_false] at hp
      rw [apply_ok_applied_false_of_patch patch_obj body patch delays interrupt
        touchValue r hp h] at ha
      exact Bool.false_ne_true ha
    · by_contra hd
      rw [apply_ok_applied_false_of_delays patch_obj body patch delays interrupt
        touchValue r hd h] at ha
      exact Bool.false_ne_true ha
  · rintro ⟨hp, rfl⟩
    rw [apply_steady_eval patch_obj body patch interrupt touchValue hp] at h
    injection h with h2
    rw [← h2]

/-- Witness for C1: an empty patch with no delays yields `applied = true`,
matching the steady-state characterization. -/
theorem apply_applied_iff_steady_witness :
    (({ applied := true, events := [] } : ApplyResult).applied = true ↔
      ((Value.obj []).truthy = false ∧ ([] : List Rat) = [])) :=
  apply_applied_iff_steady (fun _ b => Except.ok b) (Value.obj []) (Value.obj [])
    [] none "t" { applied := true, events := [] } rfl

/-- C2: with a non-empty patch, the transport write of the (dummy-cleared)
patch is the first externally observable action of the cycle, so it precedes
any sleep; and when additionally `min(delays)` is a positive (nonzero) delay,
the cycle performs no sleep at all and `apply` returns `applied = false`. -/
theorem apply_write_precedes_sleep (patch_obj : Patcher) (body patch : Value)
    (delays : List Rat) (interrupt : Option Rat) (touchValue : String)
    (r : ApplyResult) (hp : patch.truthy = true)
    (h : apply patch_obj body patch delays interrupt touchValue = Except.ok r) :
    r.events.head? = some (Event.write (progressTouch body patch none)) ∧
    (delays ≠ [] → 0 < minimalDelay delays →
      r.applied = false ∧ ∀ e ∈ r.events, e.isSleep = false) := by
  have hpt : (progressTouch body patch none).truthy = true :=
    progressTouch_truthy body patch none hp
  refine ⟨?_, ?_⟩
  · cases hres : patch_obj (progressTouch body patch none) body with
    | error e =>
        rw [apply.eq_def] at h
        simp only [hp, if_true] at h
        rw [patch_and_check_transport_error _ _ _ e hpt hres] at h
        simp at h
    | ok rb =>
        rw [apply.eq_def] at h
        simp only [hp, if_true] at h
        rw [patch_and_check_transport_ok _ _ _ rb hpt hres] at h
        simp only [CheckEffects.events, List.map_cons, List.map_nil] at h
        repeat' split at h
        all_goals try (exact Except.noConfusion h)
        all_goals injection h with h2
        all_goals subst h2
        all_goals rfl
  · intro hd hmin
    cases delays with
    | nil => exact absurd rfl hd
    | cons a as =>
        have hdt : delayTruthy (some (minimalDelay (a :: as))) = true := by
          simp only [delayTruthy, bne_iff_ne, ne_eq]
          exact fun hz => absurd (hz ▸ hmin) (lt_irrefl 0)
        cases hres : patch_obj (progressTouch body patch none) body with
        | error e =>
            rw [apply.eq_def] at h
            simp only [hp, if_true] at h
            rw [patch_and_check_transport_error _ _ _ e hpt hres] at h
            simp at h
        | ok rb =>
            rw [apply.eq_def] at h
            simp only [hp, if_true, List.isEmpty_cons, Bool.false_eq_true,
              if_false] at h
            rw [patch_and_check_transport_ok _ _ _ rb hpt hres] at h
            simp only [hpt, Bool.and_true, hdt, if_true, CheckEffects.events,
              List.map_cons, List.map_nil] at h
            injection h with h2
            subst h2
            refine ⟨rfl, ?_⟩
            intro e he
            simp only [List.mem_singleton] at he
            subst he
            rfl

/-- Witness for C2: a non-empty patch with `delays = [3]` performs the write
as its first (and only) action, does not sleep, and returns
`applied = false`. -/
theorem apply_write_precedes_sleep_witness :
    (ApplyResult.mk false
        [Event.write (Value.obj [("spec", Value.obj [("x", Value.n 1)])])]).events.head? =
      some (Event.write (progressTouch (Value.obj [])
        (Value.obj [("spec", Value.obj [("x", Value.n 1)])]) none)) ∧
    (([3] : List Rat) ≠ [] → 0 < minimalDelay [3] →
      (ApplyResult.mk false
          [Event.write (Value.obj [("spec", Value.obj [("x", Value.n 1)])])]).applied
        = false ∧
      ∀ e ∈ (ApplyResult.mk false
          [Event.write (Value.obj [("spec", Value.obj [("x", Value.n 1)])])]).events,
        e.isSleep = false) :=
  apply_write_precedes_sleep (fun p _ => Except.ok p) (Value.obj [])
    (Value.obj [("spec", Value.obj [("x", Value.n 1)])]) [3] none "t"
    (ApplyResult.mk false
      [Event.write (Value.obj [("spec", Value.obj [("x", Value.n 1)])])])
    rfl rfl

/-- C5: an `apply` cycle with an empty patch and `min(delays)` exactly `0`
performs no sleep and exactly one write — the touch: a patch that carries the
fresh marker value in the progress/bookkeeping field. -/
theorem apply_zero_delay_touches (patch_obj : Patcher) (body patch : Value)
    (delays : List Rat) (interrupt : Option Rat) (touchValue : String)
    (r : ApplyResult) (hp : patch.truthy = false) (hd : delays ≠ [])
    (hmin : minimalDelay delays = 0)
    (hfresh : Value.beq ((getPath body PROGRESS_FIELD).getD Value.null)
        (markerValue (some touchValue)) = false)
    (h : apply patch_obj body patch delays interrupt touchValue = Except.ok r) :
    r.events = [Event.write (progressTouch body (Value.obj []) (some touchValue))] ∧
    getPath (progressTouch body (Value.obj []) (some touchValue)) PROGRESS_FIELD =
      some (Value.s touchValue) := by
  have htt : (progressTouch body (Value.obj []) (some touchValue)).truthy = true := by
    rw [progressTouch_fresh _ _ _ hfresh]
    exact setPath_progress_truthy _ _
  refine ⟨?_, ?_⟩
  · cases delays with
    | nil => exact absurd rfl hd
    | cons a as =>
        have hnoop : patch_and_check patch_obj patch body =
            Except.ok { writes := [], diffsComputed := 0, warnings := [] } := by
          rw [patch_and_check]
          simp [hp]
        rw [apply.eq_def] at h
        simp only [hp, Bool.false_eq_true, if_false, List.isEmpty_cons, hnoop,
          Bool.and_false] at h
        rw [hmin] at h
        simp only [delayTruthy, bne_self_eq_false, Bool.false_eq_true, if_false,
          Bool.and_false, WAITING_KEEPALIVE_INTERVAL] at h
        norm_num at h
        cases hres : patch_obj (progressTouch body (Value.obj []) (some touchValue)) body with
        | error e =>
            rw [patch_and_check_transport_error _ _ _ e htt hres] at h
            simp at h
        | ok rb =>
            rw [patch_and_check_transport_ok _ _ _ rb htt hres] at h
            simp only [CheckEffects.events, List.map_cons, List.map_nil] at h
            injection h with h2
            subst h2
            simp
  · rw [progressTouch_fresh _ _ _ hfresh, getPath_setPath]
    rfl

/-- Witness for C5: `delays = [0]` with an empty patch produces exactly one
write, carrying the fresh marker under the progress field, and no sleep. -/
theorem apply_zero_delay_touches_witness :
    (ApplyResult.mk false
        [Event.write (progressTouch (Value.obj []) (Value.obj []) (some "t"))]).events =
      [Event.write (progressTouch (Value.obj []) (Value.obj []) (some "t"))] ∧
    getPath (progressTouch (Value.obj []) (Value.obj []) (some "t")) PROGRESS_FIELD =
      some (Value.s "t") :=
  apply_zero_delay_touches (fun p _ => Except.ok p) (Value.obj []) (Value.obj [])
    [0] none "t"
    (ApplyResult.mk false
      [Event.write (progressTouch (Value.obj []) (Value.obj []) (some "t"))])
    rfl (by decide) rfl rfl rfl

/-- C4: in the inconsistency pipeline of `patch_and_check`, a diff record
whose field path is a known inconsistency and whose old and new values are
both empty/absent (falsy) is suppressed from the reported inconsistencies; a
record with a truthy old or new value is always retained; and the left-scoped
diff only produces records whose field paths are present in the patch. -/
theorem reported_inconsistencies_filtering (patch resulting_body : Value) :
    (∀ i ∈ diffLeft patch resulting_body [],
        KNOWN_INCONSISTENCIES.contains i.field = true →
        i.old.truthy = false → i.new.truthy = false →
        i ∉ reportedInconsistencies patch resulting_body) ∧
    (∀ i ∈ diffLeft patch resulting_body [],
        (i.old.truthy = true ∨ i.new.truthy = true) →
        i ∈ reportedInconsistencies patch resulting_body) ∧
    (∀ i ∈ diffLeft patch resulting_body [],
        hasPath patch i.field = true) := by
  refine ⟨?_, ?_, ?_⟩
  · intro i hi hknown hold hnew hmem
    rw [reportedInconsistencies, List.mem_filter] at hmem
    simp only [hold, hnew, Bool.false_or, Bool.not_eq_true'] at hmem
    rw [hknown] at hmem
    exact absurd hmem.2 (by simp)
  · intro i hi hor
    rw [reportedInconsistencies, List.mem_filter]
    refine ⟨hi, ?_⟩
    rcases hor with h | h <;> simp [h]
  · intro i hi
    obtain ⟨q, hf, hp⟩ := diffLeft_hasPath patch resulting_body [] i hi
    simp only [List.nil_append] at hf
    rw [hf]
    exact hp

/-- Witness for C4: patching `metadata.labels` to an empty dict while the
resulting body dropped the field entirely is suppressed; a truthy divergence
under `spec.x` is retained; both paths are present in the patch. -/
theorem reported_inconsistencies_filtering_witness :
    (⟨DiffOp.remove, ["metadata", "labels"], Value.obj [], Value.null⟩ : DiffItem) ∉
      reportedInconsistencies
        (Value.obj [("metadata", Value.obj [("labels", Value.obj [])]),
                    ("spec", Value.obj [("x", Value.n 1)])])
        (Value.obj [("metadata", Value.obj []), ("spec", Value.obj [("x", Value.n 2)])]) ∧
    (⟨DiffOp.change, ["spec", "x"], Value.n 1, Value.n 2⟩ : DiffItem) ∈
      reportedInconsistencies
        (Value.obj [("metadata", Value.obj [("labels", Value.obj [])]),
                    ("spec", Value.obj [("x", Value.n 1)])])
        (Value.obj [("metadata", Value.obj []), ("spec", Value.obj [("x", Value.n 2)])]) ∧
    hasPath (Value.obj [("metadata", Value.obj [("labels", Value.obj [])]),
                        ("spec", Value.obj [("x", Value.n 1)])])
      ["metadata", "labels"] = true :=
  ⟨(reported_inconsistencies_filtering _ _).1 _ (List.mem_cons_self _ _) rfl rfl rfl,
   (reported_inconsistencies_filtering _ _).2.1 _
     (List.mem_cons_of_mem _ (List.mem_cons_self _ _)) (Or.inl rfl),
   (reported_inconsistencies_filtering
       (Value.obj [("metadata", Value.obj [("labels", Value.obj [])]),
                   ("spec", Value.obj [("x", Value.n 1)])])
       (Value.obj [("metadata", Value.obj []),
                   ("spec", Value.obj [("x", Value.n 2)])])).2.2
     ⟨DiffOp.remove, ["metadata", "labels"], Value.obj [], Value.null⟩
     (List.mem_cons_self _ _)⟩

/-- C3: an exception raised in the guarded scope of `throttled` that is not
an instance of the configured error classes — and in particular every
`BaseException`-level exception that the `except Exception` clause does not
even catch — propagates to the caller, regardless of `should_run` and of the
throttle state, and the exception-handling path leaves all three
`Throttler` fields exactly as they were when the scope was entered (i.e. as
produced by the pre-check sleep). -/
theorem throttled_escalated_propagates_unchanged (t : Throttler) (delays : List Rat)
    (isExceptionSub isInErrors : Bool) (now1 now2 now3 : Rat)
    (int1 int2 : Option Rat)
    (h : isInErrors = false ∨ isExceptionSub = false) :
    (throttled t delays (Outcome.raised isExceptionSub isInErrors)
        now1 int1 now2 now3 int2).propagated = true ∧
    (throttled t delays (Outcome.raised isExceptionSub isInErrors)
        now1 int1 now2 now3 int2).state = throttledPreCheck t now1 int1 := by
  cases isExceptionSub with
  | false => exact ⟨rfl, rfl⟩
  | true =>
      have herr : isInErrors = false := by
        rcases h with h | h
        · exact h
        · exact absurd h (by simp)
      subst herr
      exact ⟨rfl, rfl⟩

/-- Witness for C3: a `KeyboardInterrupt`-like exception (not an `Exception`
instance, here additionally matching the error classes) raised while a
throttle window is active propagates and leaves the state untouched. -/
theorem throttled_escalated_propagates_unchanged_witness :
    (throttled ⟨some [1, 2], some 3, some 100⟩ [1, 2] (Outcome.raised false true)
        0 (some 1) 0 0 none).propagated = true ∧
    (throttled ⟨some [1, 2], some 3, some 100⟩ [1, 2] (Outcome.raised false true)
        0 (some 1) 0 0 none).state =
      throttledPreCheck ⟨some [1, 2], some 3, some 100⟩ 0 (some 1) :=
  throttled_escalated_propagates_unchanged ⟨some [1, 2], some 3, some 100⟩ [1, 2]
    false true 0 0 0 (some 1) none (Or.inr rfl)

/-- C10: a throttle-eligible exception raised with `should_run = true` while
the configured delay sequence is empty (or an already-exhausted cursor) and
`last_used_delay` is `None` is still fully swallowed, no backoff window is
activated (`active_until` and `last_used_delay` stay `None`), and any
immediately following call observes `should_run = true`. -/
theorem throttled_exhausted_swallows_without_backoff (t : Throttler)
    (delays : List Rat) (now1 now2 now3 : Rat) (int1 int2 : Option Rat)
    (hactive : (throttledPreCheck t now1 int1).active_until = none)
    (hsrc : (t.source_of_delays = none ∧ delays = []) ∨ t.source_of_delays = some [])
    (hlast : t.last_used_delay = none) :
    (throttled t delays (Outcome.raised true true)
        now1 int1 now2 now3 int2).should_run = true ∧
    (throttled t delays (Outcome.raised true true)
        now1 int1 now2 now3 int2).propagated = false ∧
    (throttled t delays (Outcome.raised true true)
        now1 int1 now2 now3 int2).state.active_until = none ∧
    (throttled t delays (Outcome.raised true true)
        now1 int1 now2 now3 int2).state.last_used_delay = none ∧
    (∀ (delays' : List Rat) (outcome' : Outcome) (na nb nc : Rat)
        (ia ib : Option Rat),
      (throttled (throttled t delays (Outcome.raised true true)
          now1 int1 now2 now3 int2).state delays' outcome' na ia nb nc ib).should_run
        = true) := by
  have hsrc1 : (throttledPreCheck t now1 int1).source_of_delays.getD delays = [] := by
    rw [throttledPreCheck_source]
    rcases hsrc with ⟨h1, h2⟩ | h1
    · rw [h1, h2]; rfl
    · rw [h1]; rfl
  have hlast1 : (throttledPreCheck t now1 int1).last_used_delay = none := by
    rw [throttledPreCheck_last, hlast]
  rw [throttled.eq_def]
  simp only [hactive, Option.isNone_none, Bool.not_true, Bool.false_eq_true,
    if_false, hsrc1, hlast1]
  refine ⟨trivial, trivial, ?_, ?_, ?_⟩
  · simp [throttledPost, hactive]
  · simp [throttledPost, hactive]
  · intro delays' outcome' na nb nc ia ib
    apply throttled_should_run_of_active_none
    simp [throttledPost, hactive]

/-- Witness for C10: a fresh throttler with an empty delay sequence swallows
the failure, stays idle, and the next call still runs. -/
theorem throttled_exhausted_swallows_without_backoff_witness :
    (throttled ⟨none, none, none⟩ [] (Outcome.raised true true)
        0 none 0 0 none).should_run = true ∧
    (throttled ⟨none, none, none⟩ [] (Outcome.raised true true)
        0 none 0 0 none).propagated = false ∧
    (throttled ⟨none, none, none⟩ [] (Outcome.raised true true)
        0 none 0 0 none).state.active_until = none ∧
    (throttled ⟨none, none, none⟩ [] (Outcome.raised true true)
        0 none 0 0 none).state.last_used_delay = none ∧
    (∀ (delays' : List Rat) (outcome' : Outcome) (na nb nc : Rat)
        (ia ib : Option Rat),
      (throttled (throttled ⟨none, none, none⟩ [] (Outcome.raised true true)
          0 none 0 0 none).state delays' outcome' na ia nb nc ib).should_run = true) :=
  throttled_exhausted_swallows_without_backoff ⟨none, none, none⟩ [] 0 0 0 none none
    rfl (Or.inl ⟨rfl, rfl⟩) rfl

end Effects
